import Mathlib

/-!
# WaylandDisplay (ozone/wayland_display.cc)

A shallow embedding of the connection manager in `src/wayland_display.cc`.

* Pointers to objects owned elsewhere (`WaylandWindow*`) are natural numbers, `0` being `NULL`.
* Pointers to libwayland objects are `Option Handle`, `none` being `NULL`.
* Every call that leaves the class (libwayland, `delete`, `fprintf`, the message loop,
  `WaylandTask::Run`) is recorded, in program order, in a list of `Effect`s. The allocating
  calls of the registry callback (`wl_registry_bind`, `new WaylandScreen`,
  `new WaylandInputDevice`) are the exception: what they return is kept in the state.
* Values that come back from libwayland and steer control flow (the result of
  `wl_display_prepare_read`, of `wl_display_dispatch_queue`, ...) are inputs of the model.
* Allocation failure (`new`, `wl_registry_bind`, `wl_display_create_queue` returning `NULL`)
  is outside the model.
* A step with undefined behaviour in C++ (incrementing the `end()` iterator of a
  `std::list`) makes the embedded function return `none`.
-/

namespace ui

/-- A `WaylandWindow*`; `0` is the null pointer. -/
abbrev WindowPtr := Nat

/-- The null `WaylandWindow*`. -/
def NULL : WindowPtr := 0

/-- A pointer to a libwayland object (or to the input-method filter); a null pointer is the
`none` of `Option Handle`. -/
abbrev Handle := Nat

/-- A `WaylandTask` object: `id` identifies the heap object, `window` is what `GetWindow()`
returns. -/
structure WaylandTask where
  id : Nat
  window : WindowPtr
deriving DecidableEq, Repr

/-- Method `WaylandTask::GetWindow`. -/
def WaylandTask.GetWindow (t : WaylandTask) : WindowPtr := t.window

/-- A `WaylandScreen` built by `new WaylandScreen(disp, name)`: it carries the global id. -/
structure WaylandScreen where
  name : Nat
deriving DecidableEq, Repr

/-- A `WaylandInputDevice` built by `new WaylandInputDevice(disp, name)`: it carries the
global id. -/
structure WaylandInputDevice where
  name : Nat
deriving DecidableEq, Repr

/-- The proxy returned by `wl_registry_bind(registry, name, interface, version)`. -/
structure Proxy where
  name : Nat
  interface : String
  version : Nat
deriving DecidableEq, Repr

/-- What one call of `wl_display_dispatch_queue` did: its return value, and whether it
delivered the acknowledgement of the pending sync request (which runs `SyncCallback`). -/
structure DispatchOutcome where
  ret : Int
  fired : Bool
deriving DecidableEq, Repr

/-- The calls that leave the class, in the order the code makes them. -/
inductive Effect where
  | Run (t : WaylandTask)
  | delete_task (t : WaylandTask)
  | PostTask_QuitClosure
  | warning_windows_exist
  | warning_deferred_tasks_exist
  | delete_input_device (d : WaylandInputDevice)
  | delete_screen (s : WaylandScreen)
  | wl_event_queue_destroy (q : Handle)
  | wl_compositor_destroy (p : Proxy)
  | wl_shell_destroy (p : Proxy)
  | wl_shm_destroy (p : Proxy)
  | wl_registry_destroy (r : Handle)
  | delete_input_method_filter (f : Handle)
  | wl_display_flush
  | wl_display_disconnect (d : Handle)
  | wl_display_prepare_read (ret : Int)
  | wl_display_read_events
  | wl_display_dispatch_pending
  | wl_display_sync
  | wl_callback_add_listener
  | wl_proxy_set_queue
  | wl_display_dispatch_queue (ret : Int)
  | wl_callback_destroy
  | wl_display_connect (result : Option Handle)
  | new_input_method_filter (f : Handle)
  | wl_display_get_registry (r : Handle)
  | wl_registry_add_listener
  | wl_display_roundtrip (ret : Int)
  | wl_display_set_user_data
  | wl_display_create_queue (q : Handle)
deriving DecidableEq, Repr

/-- The data members of `class WaylandDisplay`. -/
structure WaylandDisplay where
  display_ : Option Handle
  registry_ : Option Handle
  compositor_ : Option Proxy
  shell_ : Option Proxy
  shm_ : Option Proxy
  queue_ : Option Handle
  input_method_filter_ : Option Handle
  window_list_ : List WindowPtr
  task_list_ : List WaylandTask
  screen_list_ : List WaylandScreen
  input_list_ : List WaylandInputDevice
  handle_flush_ : Bool
deriving DecidableEq, Repr

/-! ## Window and task registration -/

/-- Method `WaylandDisplay::AddWindow`. -/
def AddWindow (s : WaylandDisplay) (window : WindowPtr) : WaylandDisplay :=
  if window ≠ NULL then
    { s with window_list_ := s.window_list_ ++ [window], handle_flush_ := true }
  else s

/-- Method `WaylandDisplay::AddTask`; a null `task` is `none`. -/
def AddTask (s : WaylandDisplay) (task : Option WaylandTask) : WaylandDisplay :=
  match task with
  | some t => { s with task_list_ := s.task_list_ ++ [t] }
  | none => s

/-- The loop of `WaylandDisplay::ProcessTasks`: `front`, `Run`, `pop_front`, `delete`, until
the list is empty. The argument is the list from the iterator position `begin()` on; the
result is the effects, the list being empty afterwards. -/
def ProcessTasks.loop : List WaylandTask → List Effect
  | [] => []
  | task :: rest => Effect.Run task :: Effect.delete_task task :: ProcessTasks.loop rest

/-- Method `WaylandDisplay::ProcessTasks`: the state afterwards, the returned `bool` and the
effects. -/
def ProcessTasks (s : WaylandDisplay) : WaylandDisplay × Bool × List Effect :=
  if s.task_list_.isEmpty then (s, false, [])
  else ({ s with task_list_ := [] }, true, ProcessTasks.loop s.task_list_)

/-- The first loop of `WaylandDisplay::RemoveWindow`, over `task_list_`. The argument is the
part of the list from the iterator `i` on; the result is what remains of that part and the
`delete`s. When the task at `i` targets `window` it is deleted and `i = erase(i)` moves to
the element after it; the `++i` of the `for` statement then moves on once more, so that
element is not examined. If that `erase` returned `end()`, the `++i` is undefined: `none`. -/
def RemoveWindow.tasks (window : WindowPtr) : List WaylandTask → Option (List WaylandTask × List Effect)
  | [] => some ([], [])
  | t :: rest =>
    if t.GetWindow = window then
      match rest with
      | [] => none
      | skipped :: rest' =>
        (RemoveWindow.tasks window rest').map
          fun r => (skipped :: r.1, Effect.delete_task t :: r.2)
    else
      (RemoveWindow.tasks window rest).map fun r => (t :: r.1, r.2)

/-- The second loop of `WaylandDisplay::RemoveWindow`, over `window_list_`: erase the first
entry equal to `window`, then `break`. -/
def RemoveWindow.windows (window : WindowPtr) : List WindowPtr → List WindowPtr
  | [] => []
  | x :: rest => if x = window then rest else x :: RemoveWindow.windows window rest

/-- Method `WaylandDisplay::RemoveWindow`: the state afterwards and the effects, or `none` when the
task loop steps past `end()`. -/
def RemoveWindow (s : WaylandDisplay) (window : WindowPtr) : Option (WaylandDisplay × List Effect) :=
  if window = NULL then some (s, [])
  else
    match RemoveWindow.tasks window s.task_list_ with
    | none => none
    | some (tasks, deletes) =>
      let windows := RemoveWindow.windows window s.window_list_
      let s' := { s with handle_flush_ := true, task_list_ := tasks, window_list_ := windows }
      if windows.length < 1 then some (s', deletes ++ [Effect.PostTask_QuitClosure])
      else some (s', deletes)

/-- The loop of `WaylandDisplay::IsWindow` over `window_list_`. -/
def IsWindow.loop (window : WindowPtr) : List WindowPtr → Bool
  | [] => false
  | x :: rest => if x = window then true else IsWindow.loop window rest

/-- Method `WaylandDisplay::IsWindow`. -/
def IsWindow (s : WaylandDisplay) (window : WindowPtr) : Bool :=
  IsWindow.loop window s.window_list_

/-! ## Task draining, flush, synchronous round-trip -/

/-- The `while (wl_display_prepare_read(display_) != 0) wl_display_dispatch_pending(display_);`
loop of `Flush`. The argument lists the values the successive `wl_display_prepare_read` calls
return; `none` when they are used up before one of them is `0` (the loop is still running). -/
def Flush.prepare : List Int → Option (List Effect)
  | [] => none
  | ret :: rest =>
    if ret ≠ 0 then
      (Flush.prepare rest).map
        fun tr => Effect.wl_display_prepare_read ret :: Effect.wl_display_dispatch_pending :: tr
    else some [Effect.wl_display_prepare_read ret]

/-- Method `WaylandDisplay::Flush`, given the values returned by `wl_display_prepare_read`. -/
def Flush (s : WaylandDisplay) (prepare_results : List Int) : Option (WaylandDisplay × List Effect) :=
  let p := ProcessTasks s
  match Flush.prepare prepare_results with
  | none => none
  | some tr =>
    some ({ p.1 with handle_flush_ := false },
      p.2.2 ++ tr ++ [Effect.wl_display_flush, Effect.wl_display_read_events,
        Effect.wl_display_dispatch_pending])

/-- Method `WaylandDisplay::FlushTasks`. -/
def FlushTasks (s : WaylandDisplay) (prepare_results : List Int) : Option (WaylandDisplay × List Effect) :=
  if !s.handle_flush_ && s.task_list_.isEmpty then some (s, [])
  else Flush s prepare_results

/-- Method `WaylandDisplay::SyncCallback`: `*done = 1; wl_callback_destroy(callback);`. The argument
is the old `*done`, the result the new one and the effects. -/
def SyncCallback (_done : Int) : Int × List Effect := (1, [Effect.wl_callback_destroy])

/-- The `while (ret != -1 && !done) ret = wl_display_dispatch_queue(display_, queue_);` loop
of `SyncDisplay`, from the current `ret` and `done`. The list gives the outcome of the
successive dispatches; `none` when it is used up while the loop condition still holds. The
result is the final `ret` and the effects. -/
def SyncDisplay.wait (ret : Int) (done : Int) : List DispatchOutcome → Option (Int × List Effect)
  | [] => if ret ≠ -1 ∧ done = 0 then none else some (ret, [])
  | o :: rest =>
    if ret ≠ -1 ∧ done = 0 then
      let cb := if o.fired then SyncCallback done else (done, [])
      (SyncDisplay.wait o.ret cb.1 rest).map
        fun r => (r.1, Effect.wl_display_dispatch_queue o.ret :: (cb.2 ++ r.2))
    else some (ret, [])

/-- Method `WaylandDisplay::SyncDisplay`, given the outcomes of the `wl_display_dispatch_queue`
calls: the state afterwards, the returned `int` and the effects. -/
def SyncDisplay (s : WaylandDisplay) (dispatches : List DispatchOutcome) :
    Option (WaylandDisplay × Int × List Effect) :=
  match s.queue_ with
  | none => some (s, -1, [])
  | some _ =>
    let p := ProcessTasks s
    match SyncDisplay.wait 0 0 dispatches with
    | none => none
    | some (ret, tr) =>
      some ({ p.1 with handle_flush_ := false }, ret,
        p.2.2 ++ [Effect.wl_display_sync, Effect.wl_callback_add_listener,
          Effect.wl_proxy_set_queue] ++ tr ++ [Effect.wl_display_dispatch_pending])

/-! ## Global discovery -/

/-- One `global` event of the registry. -/
structure Announcement where
  name : Nat
  interface : String
  version : Nat
deriving DecidableEq, Repr

/-- The libwayland call `wl_registry_bind(registry, name, interface, version)`; the proxy it
returns records its arguments. -/
def wl_registry_bind (name : Nat) (interface : String) (version : Nat) : Option Proxy :=
  some { name := name, interface := interface, version := version }

/-- Method `WaylandDisplay::DisplayHandleGlobal`, `disp` being the `data` argument. -/
def DisplayHandleGlobal (disp : WaylandDisplay) (name : Nat) (interface : String)
    (_version : Nat) : WaylandDisplay :=
  if interface = "wl_compositor" then
    { disp with compositor_ := wl_registry_bind name "wl_compositor" 1 }
  else if interface = "wl_output" then
    { disp with screen_list_ := disp.screen_list_ ++ [WaylandScreen.mk name] }
  else if interface = "wl_seat" then
    { disp with input_list_ := disp.input_list_ ++ [WaylandInputDevice.mk name] }
  else if interface = "wl_shell" then
    { disp with shell_ := wl_registry_bind name "wl_shell" 1 }
  else if interface = "wl_shm" then
    { disp with shm_ := wl_registry_bind name "wl_shm" 1 }
  else disp

/-- The registry callback applied to a sequence of announcements, in arrival order. -/
def handleGlobals (disp : WaylandDisplay) (globals : List Announcement) : WaylandDisplay :=
  globals.foldl (fun d a => DisplayHandleGlobal d a.name a.interface a.version) disp

/-! ## Lifecycle -/

/-- The effect of destroying a handle when it is not null. -/
def whenBound {α : Type} (h : Option α) (destroy : α → Effect) : List Effect :=
  match h with
  | some x => [destroy x]
  | none => []

/-- Method `WaylandDisplay::terminate`. Only `queue_` is reset; every other member keeps its
value. -/
def terminate (s : WaylandDisplay) : WaylandDisplay × List Effect :=
  ({ s with queue_ := none },
    (if s.window_list_.length > 0 then [Effect.warning_windows_exist] else []) ++
    (if s.task_list_.length > 0 then [Effect.warning_deferred_tasks_exist] else []) ++
    s.input_list_.map Effect.delete_input_device ++
    s.screen_list_.map Effect.delete_screen ++
    whenBound s.queue_ Effect.wl_event_queue_destroy ++
    whenBound s.compositor_ Effect.wl_compositor_destroy ++
    whenBound s.shell_ Effect.wl_shell_destroy ++
    whenBound s.shm_ Effect.wl_shm_destroy ++
    whenBound s.registry_ Effect.wl_registry_destroy ++
    whenBound s.input_method_filter_ Effect.delete_input_method_filter ++
    (match s.display_ with
      | some d => [Effect.wl_display_flush, Effect.wl_display_disconnect d]
      | none => []))

/-- What the constructor meets: the result of `wl_display_connect`, the indeterminate
contents of the two members the initialiser list leaves out (`registry_`,
`input_method_filter_`), the objects the allocating calls return, the announcements
delivered during the initial round-trip and the result of `wl_display_roundtrip`. -/
structure ConnectEnv where
  connect : Option Handle
  uninit_registry : Option Handle
  uninit_filter : Option Handle
  filter : Handle
  registry : Handle
  globals : List Announcement
  roundtrip : Int
  queue : Handle
deriving DecidableEq, Repr

/-- The constructor `WaylandDisplay::WaylandDisplay(char* name)`. -/
def WaylandDisplay.ctor (env : ConnectEnv) : WaylandDisplay × List Effect :=
  let s0 : WaylandDisplay :=
    { display_ := none, registry_ := env.uninit_registry, compositor_ := none, shell_ := none,
      shm_ := none, queue_ := none, input_method_filter_ := env.uninit_filter,
      window_list_ := [], task_list_ := [], screen_list_ := [], input_list_ := [],
      handle_flush_ := false }
  match env.connect with
  | none => (s0, [Effect.wl_display_connect none])
  | some d =>
    let s1 := { s0 with display_ := some d, input_method_filter_ := some env.filter,
                        registry_ := some env.registry }
    let s2 := handleGlobals s1 env.globals
    let tr := [Effect.wl_display_connect (some d), Effect.new_input_method_filter env.filter,
      Effect.wl_display_get_registry env.registry, Effect.wl_registry_add_listener,
      Effect.wl_display_roundtrip env.roundtrip]
    if env.roundtrip < 0 then
      let t := terminate s2
      (t.1, tr ++ t.2)
    else
      ({ s2 with queue_ := some env.queue },
        tr ++ [Effect.wl_display_set_user_data, Effect.wl_display_create_queue env.queue,
          Effect.wl_proxy_set_queue])

/-- The destructor `WaylandDisplay::~WaylandDisplay`. -/
def WaylandDisplay.dtor (s : WaylandDisplay) : List Effect := (terminate s).2

/-- Method `WaylandDisplay::Connect`; the first component is `g_display` before and after. -/
def Connect (g_display : Option WaylandDisplay) (env : ConnectEnv) :
    Option WaylandDisplay × List Effect :=
  match g_display with
  | some d => (some d, [])
  | none =>
    let c := WaylandDisplay.ctor env
    (some c.1, c.2)

/-- Method `WaylandDisplay::DestroyDisplay`; the first component is `g_display` before and after. -/
def DestroyDisplay (g_display : Option WaylandDisplay) : Option WaylandDisplay × List Effect :=
  match g_display with
  | some d => (none, WaylandDisplay.dtor d)
  | none => (none, [])

/-! ## Sequences of window calls -/

/-- A call of `AddWindow` or of `RemoveWindow`. -/
inductive WindowCall where
  | Add (window : WindowPtr)
  | Remove (window : WindowPtr)
deriving DecidableEq, Repr

/-- One call applied to a state. -/
def WindowCall.apply (s : WaylandDisplay) : WindowCall → Option WaylandDisplay
  | WindowCall.Add w => some (AddWindow s w)
  | WindowCall.Remove w => (RemoveWindow s w).map Prod.fst

/-- A sequence of calls applied to a state, first call first. -/
def runCalls : List WindowCall → WaylandDisplay → Option WaylandDisplay
  | [], s => some s
  | c :: rest, s =>
    match c.apply s with
    | none => none
    | some s' => runCalls rest s'

/-- The sequence contains an `AddWindow(w)` that no later `RemoveWindow(w)` follows. -/
def addedSinceLastRemoval (w : WindowPtr) : List WindowCall → Bool
  | [] => false
  | c :: rest =>
    (c == WindowCall.Add w && !(rest.contains (WindowCall.Remove w)))
      || addedSinceLastRemoval w rest

/-- The number of entries of `w` a sequence of calls leaves, from `n` entries: each
`AddWindow(w)` makes one more, each `RemoveWindow(w)` one less when there is one. -/
def entriesAfter (w : WindowPtr) : List WindowCall → Nat → Nat
  | [], n => n
  | c :: rest, n =>
    if c = WindowCall.Add w then entriesAfter w rest (n + 1)
    else if c = WindowCall.Remove w then entriesAfter w rest (n - 1)
    else entriesAfter w rest n

/-- No `AddWindow(w)` of the sequence is made while `w` has an entry, from `n` entries. -/
def neverAddedTwice (w : WindowPtr) : List WindowCall → Nat → Bool
  | [], _ => true
  | c :: rest, n =>
    if c = WindowCall.Add w then n == 0 && neverAddedTwice w rest (n + 1)
    else if c = WindowCall.Remove w then neverAddedTwice w rest (n - 1)
    else neverAddedTwice w rest n

/-- The state of a connection before anything was registered or bound. -/
def fresh : WaylandDisplay :=
  { display_ := some 1, registry_ := some 2, compositor_ := none, shell_ := none, shm_ := none,
    queue_ := none, input_method_filter_ := some 3, window_list_ := [], task_list_ := [],
    screen_list_ := [], input_list_ := [], handle_flush_ := false }

/-- A connection with two windows and three queued tasks, the first two for window `7`. -/
def adjacentTasks : WaylandDisplay :=
  { fresh with window_list_ := [7, 8], task_list_ := [⟨1, 7⟩, ⟨2, 7⟩, ⟨3, 8⟩] }

/-- A connection with two windows and two queued tasks, the last one for window `7`. -/
def tailTask : WaylandDisplay :=
  { fresh with window_list_ := [7, 8], task_list_ := [⟨3, 8⟩, ⟨1, 7⟩] }

/-- A connection whose only registered window is `5`. -/
def oneWindow : WaylandDisplay := { fresh with window_list_ := [5] }

/-- The fresh connection once its dedicated event queue exists. -/
def connected : WaylandDisplay := { fresh with queue_ := some 4 }

/-- A connected state with one window, one screen, two input devices, a compositor and a
shared-memory handle, and no shell. -/
def fullyConnected : WaylandDisplay :=
  { display_ := some 1, registry_ := some 2, compositor_ := some ⟨10, "wl_compositor", 1⟩,
    shell_ := none, shm_ := some ⟨14, "wl_shm", 1⟩, queue_ := some 4,
    input_method_filter_ := some 3, window_list_ := [7], task_list_ := [],
    screen_list_ := [⟨11⟩], input_list_ := [⟨12⟩, ⟨13⟩], handle_flush_ := true }

/-- The transport connects, three globals are announced, then the initial round-trip fails. -/
def globalsThenFailure : ConnectEnv :=
  { connect := some 1, uninit_registry := none, uninit_filter := none, filter := 3,
    registry := 2,
    globals := [⟨10, "wl_compositor", 3⟩, ⟨11, "wl_output", 2⟩, ⟨12, "wl_seat", 4⟩],
    roundtrip := -1, queue := 4 }

/-- The transport connects and the initial round-trip fails before any announcement. -/
def roundtripFails : ConnectEnv :=
  { connect := some 1, uninit_registry := none, uninit_filter := none, filter := 3,
    registry := 2, globals := [], roundtrip := -1, queue := 4 }

/-! ## Lemmas on the window list and on `RemoveWindow` -/

theorem IsWindow_loop_iff (w : WindowPtr) (l : List WindowPtr) :
    IsWindow.loop w l = true ↔ w ∈ l := by
  induction l with
  | nil => simp [IsWindow.loop]
  | cons x rest ih =>
    by_cases h : x = w
    · simp [IsWindow.loop, h]
    · have h' : ¬ w = x := fun e => h e.symm
      simp [IsWindow.loop, h, h', ih]

theorem RemoveWindow_windows_eq_erase (w : WindowPtr) (l : List WindowPtr) :
    RemoveWindow.windows w l = l.erase w := by
  induction l with
  | nil => simp [RemoveWindow.windows]
  | cons x rest ih =>
    by_cases h : x = w
    · simp [RemoveWindow.windows, h]
    · simp [RemoveWindow.windows, h, ih, List.erase_cons_tail]

theorem RemoveWindow_tasks_deletes (w : WindowPtr) :
    ∀ (n : Nat) (l : List WaylandTask), l.length ≤ n → ∀ r, RemoveWindow.tasks w l = some r →
      Effect.PostTask_QuitClosure ∉ r.2 := by
  intro n
  induction n with
  | zero =>
    intro l hl r hr
    have : l = [] := by simpa using hl
    subst this
    simp [RemoveWindow.tasks] at hr
    subst hr
    simp
  | succ n ih =>
    intro l hl r hr
    match l, hl, hr with
    | [], _, hr =>
      simp [RemoveWindow.tasks] at hr
      subst hr
      simp
    | [t], _, hr =>
      by_cases h : t.GetWindow = w
      · simp [RemoveWindow.tasks, h] at hr
      · simp [RemoveWindow.tasks, h] at hr
        subst hr
        simp
    | t :: t2 :: rest, hl, hr =>
      by_cases h : t.GetWindow = w
      · simp only [RemoveWindow.tasks, h, if_true, Option.map_eq_some'] at hr
        obtain ⟨r', hr', rfl⟩ := hr
        have := ih rest (by simp at hl; omega) r' hr'
        simpa using this
      · simp only [RemoveWindow.tasks, h, if_false, Option.map_eq_some'] at hr
        obtain ⟨r', hr', rfl⟩ := hr
        have := ih (t2 :: rest) (by simp at hl ⊢; omega) r' hr'
        simpa using this


theorem RemoveWindow_eq_some (s : WaylandDisplay) (w : WindowPtr) (r : WaylandDisplay × List Effect)
    (h : RemoveWindow s w = some r) :
    (w = NULL ∧ r = (s, [])) ∨
    (w ≠ NULL ∧ ∃ tasks deletes, RemoveWindow.tasks w s.task_list_ = some (tasks, deletes) ∧
      r.1 = { s with handle_flush_ := true, task_list_ := tasks,
                     window_list_ := s.window_list_.erase w } ∧
      r.2 = deletes ++ (if s.window_list_.erase w = [] then [Effect.PostTask_QuitClosure] else [])) := by
  unfold RemoveWindow at h
  by_cases hw : w = NULL
  · left
    simp [hw] at h
    exact ⟨hw, h.symm⟩
  · right
    refine ⟨hw, ?_⟩
    simp only [hw, if_false] at h
    cases ht : RemoveWindow.tasks w s.task_list_ with
    | none => simp [ht] at h
    | some p =>
      obtain ⟨tasks, deletes⟩ := p
      refine ⟨tasks, deletes, rfl, ?_⟩
      simp only [ht, RemoveWindow_windows_eq_erase] at h
      by_cases he : s.window_list_.erase w = []
      · simp [he] at h
        subst h
        simp [he]
      · have : ¬ (s.window_list_.erase w).length < 1 := by
          cases hl : s.window_list_.erase w with
          | nil => exact absurd hl he
          | cons a b => simp
        simp [this] at h
        subst h
        simp [he]

theorem RemoveWindow_isSome_of_no_tasks (s : WaylandDisplay) (w : WindowPtr)
    (h : s.task_list_ = []) :
    ∃ r, RemoveWindow s w = some r ∧ r.1.task_list_ = [] := by
  unfold RemoveWindow
  by_cases hw : w = NULL
  · exact ⟨(s, []), by simp [hw], h⟩
  · simp only [hw, if_false, h, RemoveWindow.tasks]
    split <;> exact ⟨_, rfl, rfl⟩

theorem runCalls_isSome_of_no_tasks : ∀ (calls : List WindowCall) (s : WaylandDisplay),
    s.task_list_ = [] → (runCalls calls s).isSome = true := by
  intro calls
  induction calls with
  | nil => intro s _; simp [runCalls]
  | cons c rest ih =>
    intro s hs
    cases c with
    | Add v =>
      simp only [runCalls, WindowCall.apply]
      apply ih
      unfold AddWindow
      split <;> simp [hs]
    | Remove v =>
      obtain ⟨r, hr, hr'⟩ := RemoveWindow_isSome_of_no_tasks s v hs
      simp only [runCalls, WindowCall.apply, hr, Option.map_some']
      exact ih _ hr'

theorem runCalls_count (w : WindowPtr) (hw : w ≠ NULL) : ∀ (calls : List WindowCall)
    (s s' : WaylandDisplay), runCalls calls s = some s' →
    s'.window_list_.count w = entriesAfter w calls (s.window_list_.count w) := by
  intro calls
  induction calls with
  | nil =>
    intro s s' h
    simp [runCalls] at h
    simp [entriesAfter, h]
  | cons c rest ih =>
    intro s s' h
    cases c with
    | Add v =>
      simp only [runCalls, WindowCall.apply] at h
      rw [ih _ _ h]
      by_cases hv : v = w
      · subst hv
        simp [entriesAfter, AddWindow, hw]
      · have hv' : ¬ w = v := fun e => hv e.symm
        have : (AddWindow s v).window_list_.count w = s.window_list_.count w := by
          unfold AddWindow
          split
          · simp [List.count_append, List.count_singleton, hv]
          · rfl
        simp [entriesAfter, hv, this]
    | Remove v =>
      simp only [runCalls, WindowCall.apply] at h
      cases hr : RemoveWindow s v with
      | none => simp [hr] at h
      | some r =>
        simp only [hr, Option.map_some'] at h
        rw [ih _ _ h]
        have hc : r.1.window_list_.count w =
            if v = w then s.window_list_.count w - 1 else s.window_list_.count w := by
          rcases RemoveWindow_eq_some s v r hr with ⟨h0, hr0⟩ | ⟨_, tasks, deletes, _, h1, _⟩
          · have : ¬ v = w := fun e => hw (e ▸ h0)
            simp [hr0, this]
          · rw [h1]
            by_cases hv : v = w
            · subst hv
              simp [List.count_erase_self]
            · have hv' : ¬ w = v := fun e => hv e.symm
              simp [hv, List.count_erase_of_ne hv']
        by_cases hv : v = w
        · subst hv
          simp [entriesAfter, hc]
        · simp [entriesAfter, hv, hc]

theorem entriesAfter_ge_of_no_remove (w : WindowPtr) : ∀ (calls : List WindowCall) (n : Nat),
    calls.contains (WindowCall.Remove w) = false → n ≤ entriesAfter w calls n := by
  intro calls
  induction calls with
  | nil => intro n _; simp [entriesAfter]
  | cons c rest ih =>
    intro n h
    simp only [List.contains_cons, Bool.or_eq_false_iff] at h
    have hc : ¬ c = WindowCall.Remove w := by
      intro e
      subst e
      simp at h
    simp only [entriesAfter, hc, if_false]
    split
    · exact Nat.le_trans (Nat.le_succ n) (ih _ h.2)
    · exact ih _ h.2

theorem entriesAfter_pos_of_added (w : WindowPtr) : ∀ (calls : List WindowCall) (n : Nat),
    addedSinceLastRemoval w calls = true → 0 < entriesAfter w calls n := by
  intro calls
  induction calls with
  | nil => intro n h; simp [addedSinceLastRemoval] at h
  | cons c rest ih =>
    intro n h
    simp only [addedSinceLastRemoval, Bool.or_eq_true, Bool.and_eq_true, beq_iff_eq,
      Bool.not_eq_true'] at h
    rcases h with ⟨hc, hno⟩ | h
    · subst hc
      simp only [entriesAfter, if_true]
      exact Nat.lt_of_lt_of_le (Nat.succ_pos n) (entriesAfter_ge_of_no_remove w rest _ hno)
    · simp only [entriesAfter]
      split
      · exact ih _ h
      · split
        · exact ih _ h
        · exact ih _ h

theorem added_of_entriesAfter_pos (w : WindowPtr) : ∀ (calls : List WindowCall) (n : Nat),
    n ≤ 1 → neverAddedTwice w calls n = true → 0 < entriesAfter w calls n →
    addedSinceLastRemoval w calls = true ∨
      (n = 1 ∧ calls.contains (WindowCall.Remove w) = false) := by
  intro calls
  induction calls with
  | nil =>
    intro n hn _ hpos
    simp only [entriesAfter] at hpos
    right
    exact ⟨by omega, by simp⟩
  | cons c rest ih =>
    intro n hn hnev hpos
    by_cases hadd : c = WindowCall.Add w
    · subst hadd
      simp only [neverAddedTwice, if_true, Bool.and_eq_true, beq_iff_eq] at hnev
      simp only [entriesAfter, if_true] at hpos
      obtain ⟨hn0, hnev'⟩ := hnev
      subst hn0
      left
      rcases ih 1 (le_refl 1) hnev' hpos with h | ⟨_, h⟩
      · simp [addedSinceLastRemoval, h]
      · have h' : WindowCall.Remove w ∉ rest := by simpa using h
        simp [addedSinceLastRemoval, h']
    · by_cases hrem : c = WindowCall.Remove w
      · subst hrem
        simp only [neverAddedTwice, entriesAfter, hadd, if_false, if_true] at hnev hpos
        rcases ih (n - 1) (by omega) hnev hpos with h | ⟨h1, _⟩
        · left
          simp [addedSinceLastRemoval, h]
        · omega
      · simp only [neverAddedTwice, entriesAfter, hadd, hrem, if_false] at hnev hpos
        rcases ih n hn hnev hpos with h | ⟨h1, h2⟩
        · left
          simp [addedSinceLastRemoval, h]
        · right
          refine ⟨h1, ?_⟩
          have : ¬ WindowCall.Remove w = c := fun e => hrem e.symm
          have h' : WindowCall.Remove w ∉ rest := by simpa using h2
          simp [List.contains_cons, h', this]

theorem IsWindow_iff_count_pos (s : WaylandDisplay) (w : WindowPtr) :
    IsWindow s w = true ↔ 0 < s.window_list_.count w := by
  unfold IsWindow
  rw [IsWindow_loop_iff, List.count_pos_iff]

/-! ## Removal of a window and its tasks -/

/-- C1, the code at the failing input: with tasks 1 and 2 for window `7` queued next to each
other, followed by task 3 for window `8`, `RemoveWindow(7)` deletes task 1 only; task 2,
which targets window `7`, stays queued and the following `ProcessTasks` runs it. When the
only task for window `7` is the last of the queue, the loop increments `end()`. -/
theorem RemoveWindow_leaves_adjacent_task :
    RemoveWindow adjacentTasks 7 =
      some ({ adjacentTasks with handle_flush_ := true, window_list_ := [8],
                                 task_list_ := [⟨2, 7⟩, ⟨3, 8⟩] },
            [Effect.delete_task ⟨1, 7⟩]) ∧
    (ProcessTasks { adjacentTasks with handle_flush_ := true, window_list_ := [8],
                                       task_list_ := [⟨2, 7⟩, ⟨3, 8⟩] }).2.2 =
      [Effect.Run ⟨2, 7⟩, Effect.delete_task ⟨2, 7⟩,
       Effect.Run ⟨3, 8⟩, Effect.delete_task ⟨3, 8⟩] ∧
    RemoveWindow tailTask 7 = none := by
  refine ⟨?_, ?_, ?_⟩ <;> decide

/-! ## Window membership -/

/-- C2, counterexample: after `AddWindow(1)`, `AddWindow(1)`, `RemoveWindow(1)` from an empty
window list, `IsWindow(1)` is true although every `AddWindow(1)` is followed by a later
`RemoveWindow(1)`. -/
theorem IsWindow_true_after_double_add :
    fresh.window_list_ = [] ∧
    (runCalls [WindowCall.Add 1, WindowCall.Add 1, WindowCall.Remove 1] fresh).map
      (fun s => IsWindow s 1) = some true ∧
    addedSinceLastRemoval 1 [WindowCall.Add 1, WindowCall.Add 1, WindowCall.Remove 1] = false := by
  refine ⟨?_, ?_, ?_⟩ <;> decide

/-- C2, amended: for every sequence of `AddWindow`/`RemoveWindow` calls from an empty window
list and every non-null window `w`, the sequence runs to the end when no task is queued, and
after it `IsWindow(w)` is true iff an entry of `w` remains, every `AddWindow(w)` making one
entry and every `RemoveWindow(w)` taking one away when there is one. Hence an `AddWindow(w)`
that no later `RemoveWindow(w)` follows makes `IsWindow(w)` true, and when `w` is never added
while it has an entry, `IsWindow(w)` is true iff the sequence contains an `AddWindow(w)` that
no later `RemoveWindow(w)` follows. -/
theorem IsWindow_iff_entries_remain (calls : List WindowCall) (s : WaylandDisplay)
    (w : WindowPtr) (hs : s.window_list_ = []) (hw : w ≠ NULL) :
    (s.task_list_ = [] → (runCalls calls s).isSome = true) ∧
    ∀ s', runCalls calls s = some s' →
      (IsWindow s' w = true ↔ 0 < entriesAfter w calls 0) ∧
      (addedSinceLastRemoval w calls = true → IsWindow s' w = true) ∧
      (neverAddedTwice w calls 0 = true →
        (IsWindow s' w = true ↔ addedSinceLastRemoval w calls = true)) := by
  refine ⟨runCalls_isSome_of_no_tasks calls s, ?_⟩
  intro s' h
  have hc := runCalls_count w hw calls s s' h
  simp only [hs, List.count_nil] at hc
  have h1 : IsWindow s' w = true ↔ 0 < entriesAfter w calls 0 := by
    rw [IsWindow_iff_count_pos, hc]
  refine ⟨h1, ?_, ?_⟩
  · intro ha
    exact h1.mpr (entriesAfter_pos_of_added w calls 0 ha)
  · intro hn
    constructor
    · intro hi
      rcases added_of_entriesAfter_pos w calls 0 (by omega) hn (h1.mp hi) with h | ⟨h, _⟩
      · exact h
      · omega
    · intro ha
      exact h1.mpr (entriesAfter_pos_of_added w calls 0 ha)

/-- C2, witness: the sequence `AddWindow(1)`, `RemoveWindow(1)`, `AddWindow(1)` on the fresh
connection. -/
theorem IsWindow_iff_entries_remain_witness :
    fresh.window_list_ = [] ∧ (1 : WindowPtr) ≠ NULL ∧
    runCalls [WindowCall.Add 1, WindowCall.Remove 1, WindowCall.Add 1] fresh =
      some { fresh with window_list_ := [1], handle_flush_ := true } ∧
    neverAddedTwice 1 [WindowCall.Add 1, WindowCall.Remove 1, WindowCall.Add 1] 0 = true ∧
    (IsWindow { fresh with window_list_ := [1], handle_flush_ := true } 1 = true ↔
      addedSinceLastRemoval 1 [WindowCall.Add 1, WindowCall.Remove 1, WindowCall.Add 1] = true) :=
  ⟨by decide, by decide, by decide, by decide,
    ((IsWindow_iff_entries_remain [WindowCall.Add 1, WindowCall.Remove 1, WindowCall.Add 1]
      fresh 1 (by decide) (by decide)).2 _ (by decide)).2.2 (by decide)⟩

/-! ## The quit signal -/

/-- C3, counterexample: `RemoveWindow(5)` on a connection whose window list is already empty
posts the quit signal. -/
theorem RemoveWindow_quits_on_empty_list :
    fresh.window_list_ = [] ∧
    RemoveWindow fresh 5 =
      some ({ fresh with handle_flush_ := true }, [Effect.PostTask_QuitClosure]) := by
  refine ⟨?_, ?_⟩ <;> decide

/-- C3, amended: a `RemoveWindow` call returns when no task is queued, and whenever it returns
it posts the quit signal exactly once if its argument is not null and the window list is
empty after the call, and not at all otherwise. Hence removing the last remaining window
posts exactly one signal, a call for a window that is not registered while other windows are
posts none, a call with a non-null window on an empty list posts one, and a call with a null
window has no effect at all. -/
theorem RemoveWindow_quit_iff_list_empty (s : WaylandDisplay) (w : WindowPtr) :
    (s.task_list_ = [] → (RemoveWindow s w).isSome = true) ∧
    ∀ s' tr, RemoveWindow s w = some (s', tr) →
      (tr.count Effect.PostTask_QuitClosure =
        if w ≠ NULL ∧ s'.window_list_ = [] then 1 else 0) ∧
      (w ≠ NULL → s.window_list_ = [w] → tr.count Effect.PostTask_QuitClosure = 1) ∧
      (w ∉ s.window_list_ → s.window_list_ ≠ [] → tr.count Effect.PostTask_QuitClosure = 0) ∧
      (w ≠ NULL → s.window_list_ = [] → tr.count Effect.PostTask_QuitClosure = 1) ∧
      (w = NULL → s' = s ∧ tr = []) := by
  constructor
  · intro h
    obtain ⟨r, hr, _⟩ := RemoveWindow_isSome_of_no_tasks s w h
    simp [hr]
  · intro s' tr h
    rcases RemoveWindow_eq_some s w (s', tr) h with ⟨h0, hr0⟩ | ⟨hw, tasks, deletes, ht, h1, h2⟩
    · simp only [Prod.mk.injEq] at hr0
      obtain ⟨rfl, rfl⟩ := hr0
      simp [h0]
    · have hd : deletes.count Effect.PostTask_QuitClosure = 0 :=
        List.count_eq_zero_of_not_mem
          (RemoveWindow_tasks_deletes w _ s.task_list_ (le_refl _) (tasks, deletes) ht)
      simp only at h1 h2
      have hwl : s'.window_list_ = s.window_list_.erase w := by rw [h1]
      have hcount : tr.count Effect.PostTask_QuitClosure =
          if s.window_list_.erase w = [] then 1 else 0 := by
        rw [h2, List.count_append, hd]
        split <;> simp
      refine ⟨?_, ?_, ?_, ?_, ?_⟩
      · rw [hcount, hwl]
        simp [hw]
      · intro _ hl
        rw [hcount, hl]
        simp
      · intro hmem hne
        rw [hcount, List.erase_of_not_mem hmem]
        simp [hne]
      · intro _ hl
        rw [hcount, hl]
        simp
      · intro h0
        exact absurd h0 hw

/-- C3, witness: removing window `5` from the connection whose only window it is. -/
theorem RemoveWindow_quit_iff_list_empty_witness :
    RemoveWindow oneWindow 5 =
      some ({ oneWindow with window_list_ := [], handle_flush_ := true },
            [Effect.PostTask_QuitClosure]) ∧
    (5 : WindowPtr) ≠ NULL ∧ oneWindow.window_list_ = [5] ∧
    [Effect.PostTask_QuitClosure].count Effect.PostTask_QuitClosure = 1 :=
  ⟨by decide, by decide, by decide,
    ((RemoveWindow_quit_iff_list_empty oneWindow 5).2
      { oneWindow with window_list_ := [], handle_flush_ := true }
      [Effect.PostTask_QuitClosure] (by decide)).2.1 (by decide) (by decide)⟩

/-! ## Lemmas on the loops and on the registry callback -/

theorem ProcessTasks_loop_eq (l : List WaylandTask) :
    ProcessTasks.loop l = l.flatMap (fun t => [Effect.Run t, Effect.delete_task t]) := by
  induction l with
  | nil => rfl
  | cons t rest ih => simp [ProcessTasks.loop, ih]

theorem ProcessTasks_eq (s : WaylandDisplay) :
    ProcessTasks s = ({ s with task_list_ := [] }, !s.task_list_.isEmpty,
      s.task_list_.flatMap (fun t => [Effect.Run t, Effect.delete_task t])) := by
  unfold ProcessTasks
  cases h : s.task_list_ with
  | nil =>
    cases s
    simp at h
    simp [h]
  | cons t rest => simp [ProcessTasks_loop_eq]


theorem Flush_prepare_eq (failed : List Int) (extra : List Int) (hf : ∀ r ∈ failed, r ≠ 0) :
    Flush.prepare (failed ++ 0 :: extra) =
      some (failed.flatMap
          (fun r => [Effect.wl_display_prepare_read r, Effect.wl_display_dispatch_pending]) ++
        [Effect.wl_display_prepare_read 0]) := by
  induction failed with
  | nil => simp [Flush.prepare]
  | cons r rest ih =>
    have hr : r ≠ 0 := hf r (List.mem_cons_self _ _)
    have ih' := ih (fun x hx => hf x (List.mem_cons_of_mem _ hx))
    simp [Flush.prepare, hr, ih']

theorem SyncDisplay_wait_eq (done : Int) (pending : List DispatchOutcome) (last : DispatchOutcome)
    (extra : List DispatchOutcome) (ret : Int) (hret : ret ≠ -1) (hdone : done = 0)
    (hp : ∀ o ∈ pending, o.ret ≠ -1 ∧ o.fired = false)
    (hl : last.ret = -1 ∨ last.fired = true) :
    SyncDisplay.wait ret done (pending ++ last :: extra) =
      some (last.ret,
        pending.map (fun o => Effect.wl_display_dispatch_queue o.ret) ++
        [Effect.wl_display_dispatch_queue last.ret] ++
        (if last.fired then [Effect.wl_callback_destroy] else [])) := by
  induction pending generalizing ret with
  | nil =>
    subst hdone
    cases extra with
    | nil =>
      rcases hl with h | h
      · by_cases hfired : last.fired = true
        · simp [SyncDisplay.wait, hret, h, hfired, SyncCallback]
        · simp [SyncDisplay.wait, hret, h, hfired]
      · simp [SyncDisplay.wait, hret, h, SyncCallback]
    | cons e es =>
      rcases hl with h | h
      · by_cases hfired : last.fired = true
        · simp [SyncDisplay.wait, hret, h, hfired, SyncCallback]
        · simp [SyncDisplay.wait, hret, h, hfired]
      · simp [SyncDisplay.wait, hret, h, SyncCallback]
  | cons o rest ih =>
    obtain ⟨ho1, ho2⟩ := hp o (List.mem_cons_self _ _)
    have ih' := ih o.ret ho1 (fun x hx => hp x (List.mem_cons_of_mem _ hx))
    subst hdone
    simp [SyncDisplay.wait, hret, ho2, ih']

theorem handleGlobals_append (s : WaylandDisplay) (l : List Announcement) (a : Announcement) :
    handleGlobals s (l ++ [a]) =
      DisplayHandleGlobal (handleGlobals s l) a.name a.interface a.version := by
  simp [handleGlobals, List.foldl_append]

theorem handleGlobals_spec (s : WaylandDisplay) (globals : List Announcement) :
    (handleGlobals s globals).screen_list_ = s.screen_list_ ++
      (globals.filter (fun a => a.interface = "wl_output")).map (fun a => WaylandScreen.mk a.name) ∧
    (handleGlobals s globals).input_list_ = s.input_list_ ++
      (globals.filter (fun a => a.interface = "wl_seat")).map
        (fun a => WaylandInputDevice.mk a.name) ∧
    ((handleGlobals s globals).compositor_.isSome = true ↔
      s.compositor_.isSome = true ∨ ∃ a ∈ globals, a.interface = "wl_compositor") ∧
    ((handleGlobals s globals).shell_.isSome = true ↔
      s.shell_.isSome = true ∨ ∃ a ∈ globals, a.interface = "wl_shell") ∧
    ((handleGlobals s globals).shm_.isSome = true ↔
      s.shm_.isSome = true ∨ ∃ a ∈ globals, a.interface = "wl_shm") ∧
    (handleGlobals s globals).display_ = s.display_ ∧
    (handleGlobals s globals).registry_ = s.registry_ ∧
    (handleGlobals s globals).queue_ = s.queue_ ∧
    (handleGlobals s globals).input_method_filter_ = s.input_method_filter_ ∧
    (handleGlobals s globals).window_list_ = s.window_list_ ∧
    (handleGlobals s globals).task_list_ = s.task_list_ ∧
    (handleGlobals s globals).handle_flush_ = s.handle_flush_ := by
  induction globals using List.reverseRecOn with
  | nil => simp [handleGlobals]
  | append_singleton l a ih =>
    obtain ⟨h1, h2, h3, h4, h5, h6, h7, h8, h9, h10, h11, h12⟩ := ih
    rw [handleGlobals_append]
    unfold DisplayHandleGlobal
    by_cases c1 : a.interface = "wl_compositor"
    · simp [c1, h1, h2, h4, h5, h6, h7, h8, h9, h10, h11, h12, wl_registry_bind,
        List.filter_append, or_and_right, exists_or]
    · by_cases c2 : a.interface = "wl_output"
      · simp [c2, h1, h2, h3, h4, h5, h6, h7, h8, h9, h10, h11, h12, List.filter_append,
          or_and_right, exists_or]
      · by_cases c3 : a.interface = "wl_seat"
        · simp [c3, h1, h2, h3, h4, h5, h6, h7, h8, h9, h10, h11, h12, List.filter_append,
          or_and_right, exists_or]
        · by_cases c4 : a.interface = "wl_shell"
          · simp [c4, h1, h2, h3, h5, h6, h7, h8, h9, h10, h11, h12, wl_registry_bind,
              List.filter_append, or_and_right, exists_or]
          · by_cases c5 : a.interface = "wl_shm"
            · simp [c5, h1, h2, h3, h4, h6, h7, h8, h9, h10, h11, h12, wl_registry_bind,
                List.filter_append, or_and_right, exists_or]
            · simp [c1, c2, c3, c4, c5, h1, h2, h3, h4, h5, h6, h7, h8, h9, h10, h11, h12,
                List.filter_append, or_and_right, exists_or]


/-! ## Task draining -/

/-- C4: `ProcessTasks` leaves the queue empty and the rest of the state untouched, returns
true iff the queue was not empty, and its effects are, for each task of the queue in queue
order, `Run` of the task followed at once by its `delete`; a second call right after it
returns false with no effect and the same state; and `AddTask` appends, so queue order is the
order in which the tasks were added. -/
theorem ProcessTasks_runs_queue_once (s : WaylandDisplay) :
    (ProcessTasks s).1 = { s with task_list_ := [] } ∧
    ((ProcessTasks s).2.1 = true ↔ s.task_list_ ≠ []) ∧
    (ProcessTasks s).2.2 =
      s.task_list_.flatMap (fun t => [Effect.Run t, Effect.delete_task t]) ∧
    ProcessTasks (ProcessTasks s).1 = ((ProcessTasks s).1, false, []) ∧
    ∀ tasks : List WaylandTask,
      (tasks.foldl (fun d t => AddTask d (some t)) s).task_list_ = s.task_list_ ++ tasks := by
  rw [ProcessTasks_eq]
  refine ⟨rfl, ?_, rfl, ?_, ?_⟩
  · cases s.task_list_ <;> simp
  · simp [ProcessTasks]
  · intro tasks
    induction tasks generalizing s with
    | nil => simp
    | cons t rest ih =>
      rw [List.foldl_cons, ih]
      simp [AddTask]

/-! ## Flush -/

/-- C6: when the `wl_display_prepare_read` calls return the non-zero values `failed` and then
`0`, `Flush` returns, and its effects are: every queued task run and deleted, in queue order;
then each failed prepare-to-read followed by one dispatch-pending; then the successful
prepare-to-read, flush, read-events, dispatch-pending. Afterwards the task queue is empty and
`handle_flush_` is false, the rest of the state being as before. -/
theorem Flush_effect_order (s : WaylandDisplay) (failed extra : List Int)
    (hf : ∀ r ∈ failed, r ≠ 0) :
    Flush s (failed ++ 0 :: extra) =
      some ({ s with task_list_ := [], handle_flush_ := false },
        s.task_list_.flatMap (fun t => [Effect.Run t, Effect.delete_task t]) ++
        failed.flatMap
          (fun r => [Effect.wl_display_prepare_read r, Effect.wl_display_dispatch_pending]) ++
        [Effect.wl_display_prepare_read 0, Effect.wl_display_flush,
         Effect.wl_display_read_events, Effect.wl_display_dispatch_pending]) := by
  unfold Flush
  simp only [Flush_prepare_eq failed extra hf, ProcessTasks_eq]
  simp

/-- C6, witness: two queued tasks, two failed attempts to prepare the read. -/
theorem Flush_effect_order_witness :
    (∀ r ∈ [(-1 : Int), -1], r ≠ 0) ∧
    Flush tailTask ([-1, -1] ++ 0 :: []) =
      some ({ tailTask with task_list_ := [], handle_flush_ := false },
        tailTask.task_list_.flatMap (fun t => [Effect.Run t, Effect.delete_task t]) ++
        [(-1 : Int), -1].flatMap
          (fun r => [Effect.wl_display_prepare_read r, Effect.wl_display_dispatch_pending]) ++
        [Effect.wl_display_prepare_read 0, Effect.wl_display_flush,
         Effect.wl_display_read_events, Effect.wl_display_dispatch_pending]) :=
  ⟨by decide, Flush_effect_order tailTask [-1, -1] [] (by decide)⟩

/-! ## Synchronous round-trip -/

/-- C5: on a state whose `queue_` is null, `SyncDisplay` returns `-1` with no effect and the
state as it was, whatever the dispatches would do; and the constructor leaves `queue_` null
when `wl_display_connect` fails or when the initial round-trip fails. -/
theorem SyncDisplay_without_queue (dispatches : List DispatchOutcome) :
    (∀ s : WaylandDisplay, s.queue_ = none → SyncDisplay s dispatches = some (s, -1, [])) ∧
    (∀ env : ConnectEnv, env.connect = none ∨ env.roundtrip < 0 →
      (WaylandDisplay.ctor env).1.queue_ = none ∧
      SyncDisplay (WaylandDisplay.ctor env).1 dispatches =
        some ((WaylandDisplay.ctor env).1, -1, [])) := by
  have h1 : ∀ s : WaylandDisplay, s.queue_ = none →
      SyncDisplay s dispatches = some (s, -1, []) := by
    intro s h
    simp [SyncDisplay, h]
  refine ⟨h1, ?_⟩
  intro env h
  have hq : (WaylandDisplay.ctor env).1.queue_ = none := by
    unfold WaylandDisplay.ctor
    cases hc : env.connect with
    | none => rfl
    | some d =>
      rcases h with h | h
      · simp [hc] at h
      · simp [h, terminate]
  exact ⟨hq, h1 _ hq⟩

/-- C5, witness: a connection whose initial round-trip failed, and the fresh state. -/
theorem SyncDisplay_without_queue_witness :
    (roundtripFails.connect = none ∨ roundtripFails.roundtrip < 0) ∧
    fresh.queue_ = none ∧
    SyncDisplay fresh [⟨1, true⟩] = some (fresh, -1, []) ∧
    SyncDisplay (WaylandDisplay.ctor roundtripFails).1 [⟨1, true⟩] =
      some ((WaylandDisplay.ctor roundtripFails).1, -1, []) :=
  ⟨Or.inr (by decide), rfl,
    (SyncDisplay_without_queue [⟨1, true⟩]).1 fresh rfl,
    ((SyncDisplay_without_queue [⟨1, true⟩]).2 roundtripFails (Or.inr (by decide))).2⟩

/-- C9, counterexample: the first dispatch of the dedicated queue reports one event and
delivers the acknowledgement; the round-trip completed, and `SyncDisplay` returns `1`. -/
theorem SyncDisplay_returns_dispatch_count :
    connected.queue_ = some 4 ∧
    SyncDisplay connected [⟨1, true⟩] =
      some ({ connected with handle_flush_ := false }, 1,
        [Effect.wl_display_sync, Effect.wl_callback_add_listener, Effect.wl_proxy_set_queue,
         Effect.wl_display_dispatch_queue 1, Effect.wl_callback_destroy,
         Effect.wl_display_dispatch_pending]) := by
  refine ⟨?_, ?_⟩ <;> decide

/-- C9, amended: on a state with a dedicated queue, when the dispatches `pending` neither fail
nor deliver the acknowledgement and the dispatch `last` fails (returns `-1`) or delivers it,
`SyncDisplay` returns: it first runs and deletes every queued task, issues the sync request,
dispatches the dedicated queue once per element of `pending` and once more for `last`, then
dispatches the pending events once, in both cases; the queue is empty and `handle_flush_`
false afterwards; and the returned value is the result of the last dispatch, so `-1` exactly
when that dispatch failed. -/
theorem SyncDisplay_returns_last_dispatch (s : WaylandDisplay) (q : Handle)
    (pending : List DispatchOutcome) (last : DispatchOutcome) (extra : List DispatchOutcome)
    (hq : s.queue_ = some q)
    (hp : ∀ o ∈ pending, o.ret ≠ -1 ∧ o.fired = false)
    (hl : last.ret = -1 ∨ last.fired = true) :
    SyncDisplay s (pending ++ last :: extra) =
      some ({ s with task_list_ := [], handle_flush_ := false }, last.ret,
        s.task_list_.flatMap (fun t => [Effect.Run t, Effect.delete_task t]) ++
        [Effect.wl_display_sync, Effect.wl_callback_add_listener, Effect.wl_proxy_set_queue] ++
        pending.map (fun o => Effect.wl_display_dispatch_queue o.ret) ++
        [Effect.wl_display_dispatch_queue last.ret] ++
        (if last.fired then [Effect.wl_callback_destroy] else []) ++
        [Effect.wl_display_dispatch_pending]) := by
  unfold SyncDisplay
  simp only [hq, ProcessTasks_eq,
    SyncDisplay_wait_eq 0 pending last extra 0 (by decide) rfl hp hl]
  simp

/-- C9, witness: two dispatches that deliver other events, then the acknowledgement. -/
theorem SyncDisplay_returns_last_dispatch_witness :
    connected.queue_ = some 4 ∧
    (∀ o ∈ [(⟨2, false⟩ : DispatchOutcome), ⟨0, false⟩], o.ret ≠ -1 ∧ o.fired = false) ∧
    SyncDisplay connected ([⟨2, false⟩, ⟨0, false⟩] ++ ⟨3, true⟩ :: []) =
      some ({ connected with task_list_ := [], handle_flush_ := false }, 3,
        connected.task_list_.flatMap (fun t => [Effect.Run t, Effect.delete_task t]) ++
        [Effect.wl_display_sync, Effect.wl_callback_add_listener, Effect.wl_proxy_set_queue] ++
        [(⟨2, false⟩ : DispatchOutcome), ⟨0, false⟩].map
          (fun o => Effect.wl_display_dispatch_queue o.ret) ++
        [Effect.wl_display_dispatch_queue 3] ++
        (if (⟨3, true⟩ : DispatchOutcome).fired then [Effect.wl_callback_destroy] else []) ++
        [Effect.wl_display_dispatch_pending]) :=
  ⟨rfl, by decide,
    SyncDisplay_returns_last_dispatch connected 4 [⟨2, false⟩, ⟨0, false⟩] ⟨3, true⟩ [] rfl
      (by decide) (Or.inr rfl)⟩


/-! ## Global discovery -/

/-- C7: from a state with no output, no input device and no bound global, after the registry
callback has processed the announcements `globals`: `screen_list_` holds one screen per
`wl_output` announcement and `input_list_` one device per `wl_seat` announcement, in arrival
order and with the announced id; `compositor_`, `shell_` and `shm_` are bound iff
`wl_compositor`, `wl_shell`, `wl_shm` was announced; every other member is as before; an
announcement with any other interface name leaves the state as it is; and after
`wl_compositor`, one `wl_output`, one `wl_seat`, `wl_shell`, `wl_shm` the three globals are
bound and both lists have exactly one entry. -/
theorem DisplayHandleGlobal_discovery (s : WaylandDisplay) (globals : List Announcement)
    (h1 : s.screen_list_ = []) (h2 : s.input_list_ = []) (h3 : s.compositor_ = none)
    (h4 : s.shell_ = none) (h5 : s.shm_ = none) :
    (handleGlobals s globals).screen_list_ =
      (globals.filter (fun a => a.interface = "wl_output")).map
        (fun a => WaylandScreen.mk a.name) ∧
    (handleGlobals s globals).input_list_ =
      (globals.filter (fun a => a.interface = "wl_seat")).map
        (fun a => WaylandInputDevice.mk a.name) ∧
    ((handleGlobals s globals).compositor_.isSome = true ↔
      ∃ a ∈ globals, a.interface = "wl_compositor") ∧
    ((handleGlobals s globals).shell_.isSome = true ↔
      ∃ a ∈ globals, a.interface = "wl_shell") ∧
    ((handleGlobals s globals).shm_.isSome = true ↔
      ∃ a ∈ globals, a.interface = "wl_shm") ∧
    ((handleGlobals s globals).display_ = s.display_ ∧
      (handleGlobals s globals).registry_ = s.registry_ ∧
      (handleGlobals s globals).queue_ = s.queue_ ∧
      (handleGlobals s globals).input_method_filter_ = s.input_method_filter_ ∧
      (handleGlobals s globals).window_list_ = s.window_list_ ∧
      (handleGlobals s globals).task_list_ = s.task_list_ ∧
      (handleGlobals s globals).handle_flush_ = s.handle_flush_) ∧
    (∀ (d : WaylandDisplay) (a : Announcement),
      a.interface ∉ ["wl_compositor", "wl_output", "wl_seat", "wl_shell", "wl_shm"] →
      DisplayHandleGlobal d a.name a.interface a.version = d) ∧
    (∀ c o i sh m vc vo vi vsh vm : Nat,
      (handleGlobals s [⟨c, "wl_compositor", vc⟩, ⟨o, "wl_output", vo⟩, ⟨i, "wl_seat", vi⟩,
        ⟨sh, "wl_shell", vsh⟩, ⟨m, "wl_shm", vm⟩]).compositor_.isSome = true ∧
      (handleGlobals s [⟨c, "wl_compositor", vc⟩, ⟨o, "wl_output", vo⟩, ⟨i, "wl_seat", vi⟩,
        ⟨sh, "wl_shell", vsh⟩, ⟨m, "wl_shm", vm⟩]).shell_.isSome = true ∧
      (handleGlobals s [⟨c, "wl_compositor", vc⟩, ⟨o, "wl_output", vo⟩, ⟨i, "wl_seat", vi⟩,
        ⟨sh, "wl_shell", vsh⟩, ⟨m, "wl_shm", vm⟩]).shm_.isSome = true ∧
      (handleGlobals s [⟨c, "wl_compositor", vc⟩, ⟨o, "wl_output", vo⟩, ⟨i, "wl_seat", vi⟩,
        ⟨sh, "wl_shell", vsh⟩, ⟨m, "wl_shm", vm⟩]).screen_list_ = [⟨o⟩] ∧
      (handleGlobals s [⟨c, "wl_compositor", vc⟩, ⟨o, "wl_output", vo⟩, ⟨i, "wl_seat", vi⟩,
        ⟨sh, "wl_shell", vsh⟩, ⟨m, "wl_shm", vm⟩]).input_list_ = [⟨i⟩]) := by
  obtain ⟨g1, g2, g3, g4, g5, g6⟩ := handleGlobals_spec s globals
  refine ⟨?_, ?_, ?_, ?_, ?_, g6, ?_, ?_⟩
  · simpa [h1] using g1
  · simpa [h2] using g2
  · simpa [h3] using g3
  · simpa [h4] using g4
  · simpa [h5] using g5
  · intro d a ha
    simp only [List.mem_cons, List.mem_singleton, List.not_mem_nil, or_false, not_or] at ha
    obtain ⟨a1, a2, a3, a4, a5⟩ := ha
    simp [DisplayHandleGlobal, a1, a2, a3, a4, a5]
  · intro c o i sh m vc vo vi vsh vm
    simp [handleGlobals, DisplayHandleGlobal, wl_registry_bind, h1, h2]

/-- C7, witness: the five announcements on the fresh connection. -/
theorem DisplayHandleGlobal_discovery_witness :
    fresh.screen_list_ = [] ∧ fresh.input_list_ = [] ∧ fresh.compositor_ = none ∧
    fresh.shell_ = none ∧ fresh.shm_ = none ∧
    (handleGlobals fresh [⟨20, "wl_compositor", 3⟩, ⟨21, "wl_output", 2⟩, ⟨22, "wl_seat", 4⟩,
        ⟨23, "wl_shell", 1⟩, ⟨24, "wl_shm", 1⟩]).screen_list_ = [⟨21⟩] :=
  ⟨rfl, rfl, rfl, rfl, rfl,
    ((DisplayHandleGlobal_discovery fresh [] rfl rfl rfl rfl rfl).2.2.2.2.2.2.2
      20 21 22 23 24 3 2 4 1 1).2.2.2.1⟩

/-! ## Teardown -/

/-- C8: on a state whose display, registry, event queue and input-method filter are not null,
the effects of `terminate` are, in this order: the warning for remaining windows and the
warning for remaining tasks, each only when there are some; the `delete` of every input
device; the `delete` of every screen; the destruction of the event queue; the destruction of
the compositor, of the shell and of the shared-memory handle, each only if bound; the
destruction of the registry; the `delete` of the input-method filter; the flush of the
display; its disconnection. -/
theorem terminate_effect_order (s : WaylandDisplay) (d r q f : Handle)
    (hd : s.display_ = some d) (hr : s.registry_ = some r) (hq : s.queue_ = some q)
    (hf : s.input_method_filter_ = some f) :
    (terminate s).2 =
      (if s.window_list_ ≠ [] then [Effect.warning_windows_exist] else []) ++
      (if s.task_list_ ≠ [] then [Effect.warning_deferred_tasks_exist] else []) ++
      s.input_list_.map Effect.delete_input_device ++
      s.screen_list_.map Effect.delete_screen ++
      [Effect.wl_event_queue_destroy q] ++
      s.compositor_.toList.map Effect.wl_compositor_destroy ++
      s.shell_.toList.map Effect.wl_shell_destroy ++
      s.shm_.toList.map Effect.wl_shm_destroy ++
      [Effect.wl_registry_destroy r, Effect.delete_input_method_filter f,
       Effect.wl_display_flush, Effect.wl_display_disconnect d] := by
  have hb : ∀ {α : Type} (h : Option α) (destroy : α → Effect),
      whenBound h destroy = h.toList.map destroy := by
    intro α h destroy
    cases h <;> rfl
  have hw : (if s.window_list_.length > 0 then [Effect.warning_windows_exist] else []) =
      (if s.window_list_ ≠ [] then [Effect.warning_windows_exist] else []) := by
    cases s.window_list_ <;> simp
  have ht : (if s.task_list_.length > 0 then [Effect.warning_deferred_tasks_exist] else []) =
      (if s.task_list_ ≠ [] then [Effect.warning_deferred_tasks_exist] else []) := by
    cases s.task_list_ <;> simp
  unfold terminate
  simp only [hw, ht, hb, hd, hr, hq, hf]
  simp

/-- C8, witness: a connected state with one window left, a compositor and a shared-memory
handle but no shell. -/
theorem terminate_effect_order_witness :
    fullyConnected.display_ = some 1 ∧ fullyConnected.registry_ = some 2 ∧
    fullyConnected.queue_ = some 4 ∧ fullyConnected.input_method_filter_ = some 3 ∧
    (terminate fullyConnected).2 =
      (if fullyConnected.window_list_ ≠ [] then [Effect.warning_windows_exist] else []) ++
      (if fullyConnected.task_list_ ≠ [] then [Effect.warning_deferred_tasks_exist] else []) ++
      fullyConnected.input_list_.map Effect.delete_input_device ++
      fullyConnected.screen_list_.map Effect.delete_screen ++
      [Effect.wl_event_queue_destroy 4] ++
      fullyConnected.compositor_.toList.map Effect.wl_compositor_destroy ++
      fullyConnected.shell_.toList.map Effect.wl_shell_destroy ++
      fullyConnected.shm_.toList.map Effect.wl_shm_destroy ++
      [Effect.wl_registry_destroy 2, Effect.delete_input_method_filter 3,
       Effect.wl_display_flush, Effect.wl_display_disconnect 1] :=
  ⟨rfl, rfl, rfl, rfl, terminate_effect_order fullyConnected 1 2 4 3 rfl rfl rfl rfl⟩

/-- C10, the code at the failing input: `wl_display_connect` succeeds and the initial
round-trip returns `-1`. `terminate` runs in the constructor and again in the destructor, and
since it resets `queue_` only, the registry is destroyed twice, the input-method filter is
deleted twice and the display is disconnected twice; with globals announced before the
failure, the compositor handle, the screen and the input device are destroyed twice too. -/
theorem terminate_runs_twice :
    (Connect none roundtripFails).2 ++ (DestroyDisplay (Connect none roundtripFails).1).2 =
      [Effect.wl_display_connect (some 1), Effect.new_input_method_filter 3,
       Effect.wl_display_get_registry 2, Effect.wl_registry_add_listener,
       Effect.wl_display_roundtrip (-1),
       Effect.wl_registry_destroy 2, Effect.delete_input_method_filter 3,
       Effect.wl_display_flush, Effect.wl_display_disconnect 1,
       Effect.wl_registry_destroy 2, Effect.delete_input_method_filter 3,
       Effect.wl_display_flush, Effect.wl_display_disconnect 1] ∧
    (DestroyDisplay (Connect none globalsThenFailure).1).2 =
      [Effect.delete_input_device ⟨12⟩, Effect.delete_screen ⟨11⟩,
       Effect.wl_compositor_destroy ⟨10, "wl_compositor", 1⟩,
       Effect.wl_registry_destroy 2, Effect.delete_input_method_filter 3,
       Effect.wl_display_flush, Effect.wl_display_disconnect 1] ∧
    (Connect none globalsThenFailure).2 =
      [Effect.wl_display_connect (some 1), Effect.new_input_method_filter 3,
       Effect.wl_display_get_registry 2, Effect.wl_registry_add_listener,
       Effect.wl_display_roundtrip (-1),
       Effect.delete_input_device ⟨12⟩, Effect.delete_screen ⟨11⟩,
       Effect.wl_compositor_destroy ⟨10, "wl_compositor", 1⟩,
       Effect.wl_registry_destroy 2, Effect.delete_input_method_filter 3,
       Effect.wl_display_flush, Effect.wl_display_disconnect 1] := by
  refine ⟨?_, ?_, ?_⟩ <;> decide

end ui
